import Mathlib

/-!
Verification of the chat-imitation engine (`model.py` / `db.py`) of the
`astrbot_plugin_chatimitate` repository, as a shallow embedding in Lean 4.

Python dictionaries (insertion-ordered) are modelled as association lists,
Python sets used for blacklists are modelled as duplicate-free lists built by
`setAdd`/`setUnion`, the SQLite persistence layer is modelled as an in-memory
`DB` value (contexts keyed uniquely by their keyword string, matching the
`UNIQUE` column constraint and the upsert in `save_context`), and the random
draws of `random.choices` / `random.choice` / `random.random` are modelled by
an explicit `Rand` record of draw outcomes so that theorems can quantify over
every outcome.
-/

namespace ChatImitate

/-- Substring containment, modelling Python's `pat in s`. -/
def containsStr (s pat : String) : Bool :=
  decide (pat.data <:+: s.data)

/-- Python's `list[-n:]` slice: the last `n` elements of a list. -/
def takeLast (n : Nat) (l : List α) : List α :=
  l.drop (l.length - n)

/-- Python's `str.strip()`: drop leading and trailing whitespace. -/
def pyStrip (s : String) : String :=
  String.mk (((s.data.dropWhile Char.isWhitespace).reverse.dropWhile
    Char.isWhitespace).reverse)

/-- `str.startswith(pat)`. -/
def strStartsWith (s pat : String) : Bool :=
  pat.data.isPrefixOf s.data

/-- Drop the first `n` characters (`str.removeprefix` support). -/
def strDrop (s : String) (n : Nat) : String :=
  String.mk (s.data.drop n)

/-- Splitter of `str.split(sep)` on character lists: emit the chunk before
every non-overlapping occurrence of `sep`, keeping empty chunks; `skip`
counts separator characters still to be consumed after a match. -/
def splitOnAux (sep : List Char) : List Char → List Char → Nat → List (List Char)
  | [], acc, _ => [acc.reverse]
  | c :: rest, acc, skip =>
    match skip with
    | n + 1 => splitOnAux sep rest acc n
    | 0 =>
      if sep.isPrefixOf (c :: rest) ∧ sep ≠ [] then
        acc.reverse :: splitOnAux sep rest [] (sep.length - 1)
      else
        splitOnAux sep rest (c :: acc) 0

/-- `str.split(sep)` for a non-empty separator (the whole string as the one
chunk otherwise, matching `String.splitOn`). -/
def splitOnStr (s sep : String) : List String :=
  (splitOnAux sep.data s.data [] 0).map String.mk

/-- `db.Answer` (pydantic model / `answers` table row): one observed
keyword-to-keyword response pairing within a Context, scoped to a group. -/
structure Answer where
  keywords : String
  group_id : String
  count : Nat
  time : Int
  messages : List String
  topical : Nat
deriving Repr, DecidableEq

/-- `db.Ban` (pydantic model / `bans` table row). -/
structure Ban where
  keywords : String
  group_id : String
  reason : String
  time : Int
deriving Repr, DecidableEq

/-- `db.Context` (pydantic model / `contexts` table row with its `answers`
and `bans` children): the association anchored on one trigger keyword. -/
structure Context where
  keywords : String
  time : Int
  trigger_count : Nat
  answers : List Answer
  ban : List Ban
  clear_time : Int
deriving Repr, DecidableEq

/-- `db.Message` (pydantic model / `messages` table row). -/
structure Message where
  group_id : String
  user_id : String
  bot_id : String
  raw_message : String
  is_plain_text : Bool
  plain_text : String
  keywords : String
  time : Int
deriving Repr, DecidableEq

/-- `db.BlackList` (pydantic model / `blacklist` table row). -/
structure BlackList where
  answers : List String
  answers_reserve : List String
deriving Repr, DecidableEq

/-- One entry of the in-memory reply ledger `Chat._reply_dict[group][bot]`
(the dict literal appended in `answer` / `speak`). -/
structure Reply where
  time : Int
  pre_raw_message : String
  pre_keywords : String
  reply : String
  reply_keywords : String
deriving Repr, DecidableEq

/-- Key of the blacklist dictionaries: ordinary group ids are strings, and the
sentinel `Chat.BLACKLIST_FLAG = 114514` is an integer, so the two never
collide as dictionary keys. -/
inductive BKey where
  | group (g : String)
  | flag
deriving Repr, DecidableEq

-- Class-attribute defaults of `Chat` (model.py lines 95-113).
def ANSWER_THRESHOLD : Nat := 3
def ANSWER_THRESHOLD_WEIGHTS : List Nat := [7, 23, 70]
def TOPICS_SIZE : Nat := 16
def TOPICS_IMPORTANCE : Nat := 10000
def CROSS_GROUP_THRESHOLD : Nat := 2
def REPEAT_THRESHOLD : Nat := 3
def DUPLICATE_REPLY : Nat := 10
def SAVE_TIME_THRESHOLD : Int := 3600
def SAVE_COUNT_THRESHOLD : Nat := 1000
def SAVE_RESERVED_SIZE : Nat := 100
def REPLY_FLAG : String := "[Bot: Reply]"
def KEYWORDS_SIZE : Nat := 2

/-- `Chat.ANSWER_THRESHOLD_CHOICE_LIST = list(range(A - len(W) + 1, A + 1))`,
i.e. `[1, 2, 3]` with the defaults. -/
def ANSWER_THRESHOLD_CHOICE_LIST : List Int :=
  (List.range ANSWER_THRESHOLD_WEIGHTS.length).map
    (fun i => (ANSWER_THRESHOLD : Int) - (ANSWER_THRESHOLD_WEIGHTS.length : Int) + 1 + i)

/-- The derived feature record (`ChatData`).  `keywordsList` models the output
of the external `jieba` tokenizer (`_keywords_list`) and `to_me` the
mention-detection result (`to_me`, a regex over platform CQ codes plus a
"bot" call-prefix test); both depend only on external collaborators
(tokenizer, platform message format) and are carried as input data.  The
remaining derived fields are defined below exactly as in the source. -/
structure ChatData where
  group_id : String
  user_id : String
  raw_message : String
  plain_text : String
  time : Int
  bot_id : String
  keywordsList : List String
  to_me : Bool
deriving Repr, DecidableEq

/-- `ChatData.is_plain_text`: no `[CQ:` marker and a non-empty plain text. -/
def ChatData.isPlain (cd : ChatData) : Bool :=
  !containsStr cd.raw_message "[CQ:" && cd.plain_text.length != 0

/-- `ChatData.is_image`. -/
def ChatData.isImage (cd : ChatData) : Bool :=
  containsStr cd.raw_message "[CQ:image," || containsStr cd.raw_message "[CQ:face,"

/-- `ChatData._keywords_list`: empty when the message is non-plain with empty
plain text, else the tokenizer output. -/
def ChatData.kwList (cd : ChatData) : List String :=
  if !cd.isPlain && cd.plain_text.length == 0 then [] else cd.keywordsList

/-- `ChatData.keywords_len`. -/
def ChatData.kwLen (cd : ChatData) : Nat :=
  cd.kwList.length

/-- `ChatData.keywords`: the raw message for opaque non-plain messages, the
plain text when extraction yields nothing, else the tags joined by spaces. -/
def ChatData.kw (cd : ChatData) : String :=
  if !cd.isPlain && cd.plain_text.length == 0 then cd.raw_message
  else if cd.kwLen == 0 then cd.plain_text
  else " ".intercalate cd.kwList

/-- The persistence collaborator: `available` models whether
`db.db_operations` is initialized; `contexts` holds the `contexts` table
(keyed uniquely by `keywords`), `messages` the `messages` table, and
`blacklists` the `blacklist` table (keyed by group / sentinel). -/
structure DB where
  available : Bool
  contexts : List Context
  messages : List Message
  blacklists : List (BKey × BlackList)
deriving Repr, DecidableEq

/-- `DatabaseOperations.get_context`: look the context up by its keyword. -/
def DB.getContext (db : DB) (k : String) : Option Context :=
  db.contexts.find? (fun c => c.keywords == k)

/-- `DatabaseOperations.save_context`: upsert by the unique keyword column. -/
def DB.saveContext (db : DB) (c : Context) : DB :=
  { db with
    contexts :=
      if db.contexts.any (fun x => x.keywords == c.keywords) then
        db.contexts.map (fun x => if x.keywords == c.keywords then c else x)
      else
        db.contexts ++ [c] }

/-- `DatabaseOperations.get_blacklist`. -/
def DB.getBlacklist (db : DB) (k : BKey) : Option BlackList :=
  (db.blacklists.find? (fun p => p.1 == k)).map (·.2)

/-- The body of the answer-merge loop of `Chat._context_insert`: find the
first existing answer for `(group_id, keywords)` — increment its count,
refresh its time and (for plain text) append the message — else append a new
`Answer` with count 1 and `messages=[plain_text]`. -/
def insertAnswer (g kw : String) (t : Int) (plain : String) (isPlain : Bool) :
    List Answer → List Answer
  | [] => [{ keywords := kw, group_id := g, count := 1, time := t,
             messages := [plain], topical := 0 }]
  | a :: rest =>
    if a.group_id == g && a.keywords == kw then
      { a with count := a.count + 1, time := t,
               messages := if isPlain then a.messages ++ [plain] else a.messages } :: rest
    else
      a :: insertAnswer g kw t plain isPlain rest

/-- `Chat._context_insert(pre_msg)`: skip on a missing previous message, an
unavailable persistence collaborator, a pure repeat (same plain text) or a
reply-quote; otherwise fetch-or-create the Context keyed by the previous
message's keywords, merge the answer, bump trigger data and save. -/
def contextInsert (cd : ChatData) (pre : Option Message) (db : DB) : DB :=
  match pre with
  | none => db
  | some pre =>
    if !db.available then db
    else if pre.plain_text == cd.plain_text then db
    else if containsStr cd.plain_text "[CQ:reply," then db
    else
      let keywords := cd.kw
      let group_id := cd.group_id
      let pre_keywords := pre.keywords
      let cur_time := cd.time
      match db.getContext pre_keywords with
      | some context =>
        db.saveContext
          { context with
            answers := insertAnswer group_id keywords cur_time cd.plain_text cd.isPlain
              context.answers,
            time := cur_time,
            trigger_count := context.trigger_count + 1 }
      | none =>
        db.saveContext
          { keywords := pre_keywords, time := cur_time, trigger_count := 1,
            answers := [{ keywords := keywords, group_id := group_id, count := 1,
                          time := cur_time, messages := [cd.plain_text], topical := 0 }],
            ban := [], clear_time := 0 }

/-- `true` iff the answer matches the `(group, keyword)` pair looked up by
`_context_insert`. -/
def answerMatches (g kw : String) (a : Answer) : Bool :=
  a.group_id == g && a.keywords == kw

/-- At most one `Answer` per `(group, keyword)` pair: no two entries of the
list share their `(group_id, keywords)` key. -/
def answersUnique : List Answer → Bool
  | [] => true
  | a :: rest =>
    rest.all (fun b => !(b.group_id == a.group_id && b.keywords == a.keywords)) &&
      answersUnique rest

/-- The per-`(group, keyword)` invariant over a whole stored database. -/
def dbAnswersUnique (db : DB) : Bool :=
  db.contexts.all (fun c => answersUnique c.answers)

/-! ## Insertion-ordered dictionaries and sets -/

/-- Dictionary lookup over an insertion-ordered association list. -/
def dictGet [BEq κ] (d : List (κ × α)) (k : κ) : Option α :=
  (d.find? (fun p => p.1 == k)).map (·.2)

/-- Dictionary lookup with the defaultdict default. -/
def dictGetD [BEq κ] (d : List (κ × α)) (k : κ) (dflt : α) : α :=
  (dictGet d k).getD dflt

/-- `d[k] = f(d[k])` on a defaultdict with default `dflt`: update the value in
place if the key exists, else append a new entry (Python dicts keep insertion
order). -/
def dictUpd [BEq κ] (d : List (κ × α)) (k : κ) (dflt : α) (f : α → α) : List (κ × α) :=
  if d.any (fun p => p.1 == k) then
    d.map (fun p => if p.1 == k then (p.1, f p.2) else p)
  else
    d ++ [(k, f dflt)]

/-- `set.add`: duplicate-free insertion. -/
def setAdd (l : List String) (x : String) : List String :=
  if l.contains x then l else l ++ [x]

/-- `set |= other`: duplicate-free union. -/
def setUnion (a b : List String) : List String :=
  b.foldl setAdd a

/-- The deque `append`/`+=` with a `maxlen` bound: keep the `maxlen` most
recent elements, dropping from the left. -/
def dequeAppend (maxlen : Nat) (d xs : List α) : List α :=
  takeLast maxlen (d ++ xs)

/-! ## The process-wide working-set caches (`Chat` class variables) -/

/-- The run-time class variables of `Chat`: the per-group message cache
`_message_dict`, the per-group-per-bot reply ledger `_reply_dict`, the
two-tier blacklist dictionaries, the per-group recent-topics ring
`_recent_topics`, the last-flush timestamp `_late_save_time`, and the
persistence collaborator `db`. -/
structure ChatState where
  message_dict : List (String × List Message)
  reply_dict : List (String × List (String × List Reply))
  blacklist_answer : List (BKey × List String)
  blacklist_answer_reserve : List (BKey × List String)
  recent_topics : List (String × List String)
  late_save_time : Int
  db : DB
deriving Repr, DecidableEq

/-- `Chat._message_dict[group]` (defaultdict of lists). -/
def msgCache (s : ChatState) (g : String) : List Message :=
  dictGetD s.message_dict g []

/-- `Chat._reply_dict[group][bot]` (nested defaultdict of lists). -/
def replyLedger (s : ChatState) (g b : String) : List Reply :=
  dictGetD (dictGetD s.reply_dict g []) b []

/-- Append entries to the `(group, bot)` reply ledger. -/
def replyAppend (s : ChatState) (g b : String) (rs : List Reply) : ChatState :=
  { s with reply_dict :=
      dictUpd s.reply_dict g [] (fun inner => dictUpd inner b [] (· ++ rs)) }

/-- `Chat._blacklist_answer[k]` (defaultdict of sets). -/
def blActive (s : ChatState) (k : BKey) : List String :=
  dictGetD s.blacklist_answer k []

/-- `Chat._blacklist_answer_reserve[k]`. -/
def blReserve (s : ChatState) (k : BKey) : List String :=
  dictGetD s.blacklist_answer_reserve k []

/-- `Chat._recent_topics[group]` (deque with `maxlen=TOPICS_SIZE`). -/
def topicsOf (s : ChatState) (g : String) : List String :=
  dictGetD s.recent_topics g []

/-- Fold keywords into the group's recent-topics ring. -/
def topicsAppend (s : ChatState) (g : String) (ks : List String) : ChatState :=
  { s with recent_topics :=
      dictUpd s.recent_topics g [] (fun d => dequeAppend TOPICS_SIZE d ks) }

/-! ## Checkpoint flush (`Chat._sync`) and message caching -/

/-- The flush selection of `_sync`: every cached message (dictionary order,
then cache order) strictly newer than the last flush time. -/
def saveList (s : ChatState) : List Message :=
  (s.message_dict.map (fun p => p.2.filter (fun m => m.time > s.late_save_time))).flatten

/-- `Chat._sync(cur_time)`: skip when the persistence collaborator is
unavailable; select the messages to flush, and if there are none return
unchanged; otherwise persist each selected message, trim every group's cache
to its `SAVE_RESERVED_SIZE` most recent entries and advance the last-flush
timestamp. -/
def syncOp (cur_time : Int) (s : ChatState) : ChatState :=
  if !s.db.available then s
  else if (saveList s).isEmpty then s
  else
    { s with
      message_dict := s.message_dict.map (fun p => (p.1, takeLast SAVE_RESERVED_SIZE p.2)),
      late_save_time := cur_time,
      db := { s.db with messages := s.db.messages ++ saveList s } }

/-- `Chat._message_insert`: append the derived `Message` to the group cache,
fold the tokenizer tags into the topics ring for plain text, seed the
last-flush timestamp on the very first message, and trigger `_sync` on the
count or time threshold. -/
def messageInsert (cd : ChatData) (s : ChatState) : ChatState :=
  let g := cd.group_id
  let msg : Message :=
    { group_id := g, user_id := cd.user_id, bot_id := cd.bot_id,
      raw_message := cd.raw_message, is_plain_text := cd.isPlain,
      plain_text := cd.plain_text, keywords := cd.kw, time := cd.time }
  let s := { s with message_dict := dictUpd s.message_dict g [] (· ++ [msg]) }
  let s := if cd.isPlain then topicsAppend s g cd.kwList else s
  let cur_time := cd.time
  if s.late_save_time == 0 then { s with late_save_time := cur_time - 1 }
  else if (msgCache s g).length > SAVE_COUNT_THRESHOLD then syncOp cur_time s
  else if cur_time - s.late_save_time > SAVE_TIME_THRESHOLD then syncOp cur_time s
  else s

/-! ## The learning subsystem (`Chat.learn`) -/

/-- The second-edge scan of `Chat.learn`: when the group's previous message
exists and was sent by a different user, walk the last two cached messages
newest-first (`group_msgs[:-3:-1]`) and pick the first one sent by the
current sender. -/
def learnSecondEdge (cd : ChatData) (group_msgs : List Message) : Option Message :=
  match group_msgs.getLast? with
  | none => none
  | some pre =>
    if pre.user_id != cd.user_id then
      (takeLast 2 group_msgs).reverse.find? (fun m => m.user_id == cd.user_id)
    else
      none

/-- `Chat.learn`: no-op returning `false` on whitespace-only raw text or an
unavailable persistence collaborator; otherwise create/update the edge from
the group's previous cached message, possibly a second edge from the current
sender's own recent message, append the message to the cache and return
`true`. -/
def learn (cd : ChatData) (s : ChatState) : Bool × ChatState :=
  if (pyStrip cd.raw_message).length == 0 then (false, s)
  else if !s.db.available then (false, s)
  else
    let s :=
      match dictGet s.message_dict cd.group_id with
      | none => s
      | some group_msgs =>
        let s := { s with db := contextInsert cd group_msgs.getLast? s.db }
        match learnSecondEdge cd group_msgs with
        | some m => { s with db := contextInsert cd (some m) s.db }
        | none => s
    (true, messageInsert cd s)

/-! ## Ban set computation (`Chat._find_ban_keywords`) -/

/-- `Chat._find_ban_keywords(context, group_id)`: the union of the global
active blacklist and the group's active blacklist, plus every Ban on the
context scoped to this group, plus any Ban keyword whose records for other
groups reach the cross-group threshold.  Note the source tests
`ban.group_id in {group_id, Chat.BLACKLIST_FLAG}`, and since `ban.group_id`
is a string while the sentinel is the integer `114514`, only the current
group can match that set. -/
def findBanKeywords (ctx? : Option Context) (group_id : String) (s : ChatState) :
    List String :=
  let base := setUnion (blActive s .flag) (blActive s (.group group_id))
  match ctx? with
  | none => base
  | some context =>
    if context.ban.isEmpty then base
    else
      (context.ban.foldl
        (fun (acc : List String × List (String × Nat)) b =>
          if b.group_id == group_id then (setAdd acc.1 b.keywords, acc.2)
          else
            let c := dictGetD acc.2 b.keywords 0 + 1
            ((if c == CROSS_GROUP_THRESHOLD then setAdd acc.1 b.keywords else acc.1),
             dictUpd acc.2 b.keywords 0 (fun o => o + 1)))
        (base, [])).1

/-! ## The response selector (`Chat._context_find` / `Chat.answer`) -/

/-- Outcomes of the random draws inside one `_context_find` call:
`thresholdIdx` drives the `random.choices` draw of the acceptance threshold,
`pickIdx` the weighted candidate pick, `msgIdx` the uniform `random.choice`
over the chosen candidate's messages, and `split` whether
`random.random() < SPLIT_PROBABILITY` succeeded. -/
structure Rand where
  thresholdIdx : Nat
  pickIdx : Nat
  msgIdx : Nat
  split : Bool
deriving Repr, DecidableEq

/-- Model of `random.choices(l, weights)[0]`: the draw returns some element
of the list; which one is supplied by the draw outcome `r`.  (The weights
determine the distribution, not the support needed by the theorems, so they
are accepted and ignored.) -/
def weightedChoice (l : List α) (ws : List Nat) (r : Nat) : Option α :=
  let _ := ws
  l[r % l.length]?

/-- The repeat-detection stage opening `Chat._context_find`: `some result`
means the group is repeating and the selector returns `result` immediately
(the repeated text once, or nothing when the bot has no recorded reply or
already replied with that text); `none` means fall through to the context
lookup. -/
def repeatStage (cd : ChatData) (s : ChatState) : Option (Option (List String × String)) :=
  match dictGet s.message_dict cd.group_id with
  | none => none
  | some group_msgs =>
    if decide (REPEAT_THRESHOLD ≤ group_msgs.length) &&
        (takeLast (REPEAT_THRESHOLD - 1) group_msgs).all
          (fun m => m.plain_text == cd.plain_text) then
      some (match (replyLedger s cd.group_id cd.bot_id).getLast? with
            | some last =>
              if last.reply != cd.plain_text then some ([cd.plain_text], cd.kw) else none
            | none => none)
    else none

/-- `"".join` artifact test of the selector: a bare digit string
(`sample_msg.strip().isdigit()`). -/
def isDigitStr (str : String) : Bool :=
  str.length != 0 && str.data.all Char.isDigit

/-- `candidate_append(dst, answer)`: outside CQ markup add the topical
overlap with the group's recent-topics ring to the answer, then insert it
under its keyword or merge counts and message lists into the entry already
present. -/
def candidateAppend (topics : List String) (dst : List (String × Answer)) (a : Answer) :
    List (String × Answer) :=
  let key := a.keywords
  let a :=
    if !containsStr key "[CQ:" then
      { a with topical := a.topical + ((splitOnStr key " ").map (fun k => topics.count k)).sum }
    else a
  match dictGet dst key with
  | none => dst ++ [(key, a)]
  | some pre =>
    dst.map (fun p =>
      if p.1 == key then
        (p.1, { pre with count := pre.count + a.count, messages := pre.messages ++ a.messages })
      else p)

/-- Accumulator of the candidate loop of `_context_find`: the local candidate
pool, the below-threshold cross-group side cache, and the per-keyword
cross-group occurrence counters. -/
structure FindAcc where
  candidates : List (String × Answer)
  cache : List (String × Answer)
  counts : List (String × Nat)
deriving Repr, DecidableEq

/-- One iteration of the `for answer in context.answers` loop of
`_context_find`: apply every candidate filter, then file the survivor as a
same-group candidate or through the cross-group promotion logic. -/
def processAnswer (cd : ChatData) (topics : List String) (thr : Int) (cross : Nat)
    (ban recentR recentM : List String) (acc : FindAcc) (a : Answer) : FindAcc :=
  if (a.count : Int) < thr then acc
  else
    let key := a.keywords
    if ban.contains key || recentR.contains key || key == cd.kw then acc
    else
      -- `answer.messages[0]`; the learning path always stores a non-empty list.
      let sample := a.messages.headD ""
      if cd.isImage && !containsStr sample "[CQ:" then acc
      else if strStartsWith sample "bot" && (!cd.to_me || decide (sample.length ≤ 6)) then acc
      else if strStartsWith sample "[CQ:xml" then acc
      else if containsStr sample "\n" then acc
      else if !containsStr sample "[CQ:" && isDigitStr (pyStrip sample) then acc
      else if decide (a.count < 3) && recentM.contains sample then acc
      else if a.group_id == cd.group_id then
        { acc with candidates := candidateAppend topics acc.candidates a }
      else if containsStr sample "[CQ:at,qq=" then acc
      else
        let c := dictGetD acc.counts key 0 + 1
        let counts := dictUpd acc.counts key 0 (fun o => o + 1)
        if c < cross then
          { acc with cache := candidateAppend topics acc.cache a, counts := counts }
        else if c == cross then
          let cands :=
            if 1 < c then
              match dictGet acc.cache key with
              | some cached => candidateAppend topics acc.candidates cached
              | none => acc.candidates
            else acc.candidates
          { acc with candidates := candidateAppend topics cands a, counts := counts }
        else
          { acc with candidates := candidateAppend topics acc.candidates a, counts := counts }

/-- The surviving candidate pool of one `_context_find` call. -/
def collectCandidates (cd : ChatData) (s : ChatState) (context : Context)
    (thr : Int) (cross : Nat) (ban : List String) : List (String × Answer) :=
  let recentR := (takeLast DUPLICATE_REPLY (replyLedger s cd.group_id cd.bot_id)).map
    (·.reply_keywords)
  let recentM := (takeLast DUPLICATE_REPLY (msgCache s cd.group_id)).map (·.raw_message)
  let topics := topicsOf s cd.group_id
  (context.answers.foldl (processAnswer cd topics thr cross ban recentR recentM)
    ⟨[], [], []⟩).candidates

/-- `answer_str.removeprefix("bot")`. -/
def removeBotCallHead (str : String) : String :=
  if strStartsWith str "bot" then strDrop str 3 else str

/-- Number of `，` clause separators in a string (`answer_str.count("，")`). -/
def sepCount (str : String) : Nat :=
  (splitOnStr str "，").length - 1

/-- The final segment list produced from the chosen message text: the
probabilistic clause split of `_context_find`. -/
def segmentsOf (msg : String) (rnd : Rand) : List String :=
  let answer_str := removeBotCallHead msg
  if decide (0 < sepCount answer_str) && decide (sepCount answer_str ≤ 3) &&
      !containsStr answer_str "[CQ:" && rnd.split then
    splitOnStr answer_str "，"
  else [answer_str]

/-- The random acceptance-threshold draw of `_context_find`: a weighted
choice over `ANSWER_THRESHOLD_CHOICE_LIST`, lowered by one when the keyword
count equals the tokenizer's target `K`. -/
def thresholdOf (cd : ChatData) (rnd : Rand) : Int :=
  let thr0 := (weightedChoice ANSWER_THRESHOLD_CHOICE_LIST ANSWER_THRESHOLD_WEIGHTS
    rnd.thresholdIdx).getD (ANSWER_THRESHOLD : Int)
  if cd.kwLen == KEYWORDS_SIZE then thr0 - 1 else thr0

/-- The cross-group promotion threshold: 1 when addressed to the bot, else
the configured default. -/
def crossOf (cd : ChatData) : Nat :=
  if cd.to_me then 1 else CROSS_GROUP_THRESHOLD

/-- The selection tail of `_context_find` once a context was found: candidate
filtering with cross-group promotion, weighted pick, uniform message choice,
call-prefix strip and probabilistic split. -/
def contextFindMain (cd : ChatData) (s : ChatState) (rnd : Rand) (context : Context) :
    Option (List String × String) :=
  let cands := collectCandidates cd s context (thresholdOf cd rnd) (crossOf cd)
    (findBanKeywords (some context) cd.group_id s)
  if cands.isEmpty then none
  else
    let values := cands.map (·.2)
    let weights := values.map (fun a => min a.count 10 + a.topical * TOPICS_IMPORTANCE)
    match weightedChoice values weights rnd.pickIdx with
    | none => none
    | some final =>
      match final.messages[rnd.msgIdx % final.messages.length]? with
      | none => none
      | some answer_str => some (segmentsOf answer_str rnd, final.keywords)

/-- `Chat._context_find`: repeat detection, then context lookup and the
selection tail. -/
def contextFind (cd : ChatData) (s : ChatState) (rnd : Rand) :
    Option (List String × String) :=
  match repeatStage cd s with
  | some r => r
  | none =>
    if !s.db.available then none
    else
      match s.db.getContext cd.kw with
      | none => none
      | some context => contextFindMain cd s rnd context

/-- `Chat.answer`: refuse short plain text, run the selector, and on success
append the `REPLY_FLAG` sentinel to the `(group, bot)` reply ledger before
handing back the (not yet consumed) segment sequence. -/
def answerOp (cd : ChatData) (s : ChatState) (rnd : Rand) (now : Int) :
    ChatState × Option (List String × String) :=
  if cd.isPlain && decide (cd.plain_text.length < 2) then (s, none)
  else
    match contextFind cd s rnd with
    | none => (s, none)
    | some results =>
      (replyAppend s cd.group_id cd.bot_id
        [{ time := now, pre_raw_message := cd.raw_message, pre_keywords := cd.kw,
           reply := REPLY_FLAG, reply_keywords := REPLY_FLAG }],
       some results)

/-- One iteration of the `yield_results` generator body of `Chat.answer`:
record the segment in the reply ledger and fold the answer's and the
trigger's keywords into the recent-topics ring.  (The generator's final
`group_bot_replies = group_bot_replies[-SAVE_RESERVED_SIZE:]` only rebinds a
local name and mutates no cache, so it has no model.) -/
def consumeSegment (cd : ChatData) (answer_keywords : String) (now : Int)
    (s : ChatState) (item : String) : ChatState :=
  let s := replyAppend s cd.group_id cd.bot_id
    [{ time := now, pre_raw_message := cd.raw_message, pre_keywords := cd.kw,
       reply := item, reply_keywords := answer_keywords }]
  let s :=
    if !containsStr item "[CQ:" then
      topicsAppend s cd.group_id
        ((splitOnStr answer_keywords " ").filter (fun k => !strStartsWith k "bot"))
    else s
  topicsAppend s cd.group_id cd.kwList

/-- Consuming the first segments of a reply sequence in order. -/
def consumeList (cd : ChatData) (answer_keywords : String) (now : Int)
    (s : ChatState) (items : List String) : ChatState :=
  items.foldl (consumeSegment cd answer_keywords now) s

/-! ## The ban subsystem (`Chat.ban`) -/

/-- Character class of the `(\[CQ:[a-zA-z0-9-_.]+)` fallback pattern of
`Chat.ban` (note the source's `A-z` range, which also spans the ASCII
punctuation between `Z` and `a`). -/
def cqCharOk (c : Char) : Bool :=
  ('a' ≤ c && c ≤ 'z') || ('A' ≤ c && c ≤ 'z') || c.isDigit ||
    c == '-' || c == '_' || c == '.'

/-- Leftmost match of the fallback pattern: `[CQ:` followed by a non-empty
run of allowed characters. -/
def findCQTypeAux : List Char → Option String
  | [] => none
  | c :: rest =>
    if "[CQ:".data.isPrefixOf (c :: rest) then
      let run := ((c :: rest).drop 4).takeWhile cqCharOk
      if run.isEmpty then findCQTypeAux rest else some ("[CQ:" ++ String.mk run)
    else findCQTypeAux rest

/-- `re.search(r"(\[CQ:[a-zA-z0-9-_.]+)", ban_raw_message)`. -/
def findCQType (str : String) : Option String :=
  findCQTypeAux str.data

/-- The ledger search of `Chat.ban`: walk the `(group, bot)` ledger most
recent first for an entry whose reply contains the target (an empty target
matches immediately), retrying by CQ type tag alone if that fails. -/
def banTarget (s : ChatState) (group_id bot_id ban_raw : String) : Option Reply :=
  let reply_data := (replyLedger s group_id bot_id).reverse
  match reply_data.find? (fun r => ban_raw == "" || containsStr r.reply ban_raw) with
  | some r => some r
  | none =>
    match findCQType ban_raw with
    | some tk => reply_data.find? (fun r => containsStr r.reply tk)
    | none => none

/-- The two-stage reserve/active promotion block of `Chat.ban`: a keyword
already staged in the group's reserve set is promoted to the group's active
set (and, when also staged under the global sentinel, to the global active
set); otherwise it is staged in the group's reserve set as a first strike. -/
def blPromote (group_id keywords : String) (s : ChatState) : ChatState :=
  if (blReserve s (.group group_id)).contains keywords then
    let bl := dictUpd s.blacklist_answer (.group group_id) [] (fun l => setAdd l keywords)
    let s := { s with blacklist_answer := bl }
    if (blReserve s .flag).contains keywords then
      let bl := dictUpd s.blacklist_answer .flag [] (fun l => setAdd l keywords)
      { s with blacklist_answer := bl }
    else s
  else
    let br := dictUpd s.blacklist_answer_reserve (.group group_id) []
      (fun l => setAdd l keywords)
    { s with blacklist_answer_reserve := br }

/-- `Chat.ban(group_id, bot_id, ban_raw_message, reason)`: fail on an unknown
group, a missing ledger match, or an unavailable persistence collaborator;
otherwise append a Ban record to the owning Context (when it exists) and run
the two-stage reserve/active promotion on the blacklist sets. -/
def banOp (group_id bot_id ban_raw reason : String) (now : Int) (s : ChatState) :
    Bool × ChatState :=
  if (dictGet s.reply_dict group_id).isNone then (false, s)
  else
    match banTarget s group_id bot_id ban_raw with
    | none => (false, s)
    | some reply =>
      if !s.db.available then (false, s)
      else
        let pre_keywords := reply.pre_keywords
        let keywords := reply.reply_keywords
        let db :=
          match s.db.getContext pre_keywords with
          | some ctx =>
            s.db.saveContext
              { ctx with ban := ctx.ban ++
                  [{ keywords := keywords, group_id := group_id, reason := reason,
                     time := now }] }
          | none => s.db
        (true, blPromote group_id keywords { s with db := db })

/-! ## Blacklist maintenance -/

/-- `Chat._select_blacklist`: merge every persisted blacklist for the known
keys of either blacklist dictionary into the in-memory sets. -/
def selectBlacklist (s : ChatState) : ChatState :=
  if !s.db.available then s
  else
    let keys := s.blacklist_answer.map (·.1) ++ s.blacklist_answer_reserve.map (·.1)
    keys.foldl
      (fun st k =>
        match st.db.getBlacklist k with
        | none => st
        | some bl =>
          let st :=
            if !bl.answers.isEmpty then
              let upd := dictUpd st.blacklist_answer k [] (fun l => setUnion l bl.answers)
              { st with blacklist_answer := upd }
            else st
          if !bl.answers_reserve.isEmpty then
            let upd := dictUpd st.blacklist_answer_reserve k []
              (fun l => setUnion l bl.answers_reserve)
            { st with blacklist_answer_reserve := upd }
          else st)
      s

/-- `Chat.update_global_blacklist`: after merging persisted data, count how
many entries of the active blacklist dictionary contain each keyword and
globalize every keyword reaching the cross-group threshold. -/
def updateGlobalBlacklist (s : ChatState) : ChatState :=
  let s := selectBlacklist s
  let global :=
    (s.blacklist_answer.foldl
      (fun (acc : List (String × Nat) × List String) p =>
        p.2.foldl
          (fun (acc : List (String × Nat) × List String) kw =>
            let c := dictGetD acc.1 kw 0 + 1
            (dictUpd acc.1 kw 0 (fun o => o + 1),
             if c == CROSS_GROUP_THRESHOLD then setAdd acc.2 kw else acc.2))
          acc)
      ([], [])).2
  { s with blacklist_answer := dictUpd s.blacklist_answer .flag [] (fun l => setUnion l global) }

/-! ## Daily pruning (`Chat.clearup_context`) -/

/-- An answer the pruning pass considers learned: `count > 1 OR time >
expiration`. -/
def answerLearned (expiration : Int) (a : Answer) : Bool :=
  decide (1 < a.count) || decide (expiration < a.time)

/-- Phase-1 deletion test of `clearup_context`: older than the 15-day cutoff,
trigger count below the acceptance threshold, and no learned answer. -/
def contextDead (expiration : Int) (c : Context) : Bool :=
  decide (c.time < expiration) && decide (c.trigger_count < ANSWER_THRESHOLD) &&
    !(c.answers.any (answerLearned expiration))

/-- Phase 2 of `clearup_context`: for a heavily-triggered or stale-clear
context, delete its unlearned answers and stamp the new clear time. -/
def pruneAnswers (cur_time expiration : Int) (c : Context) : Context :=
  if decide (100 < c.trigger_count) || decide (c.clear_time < expiration) then
    { c with answers := c.answers.filter (answerLearned expiration),
             clear_time := cur_time }
  else c

/-- `Chat.clearup_context(cur_time)` over the stored context table: delete
genuinely unlearned stale contexts, then for heavily-triggered or stale-clear
contexts delete their unlearned answers and stamp the new clear time. -/
def clearupContext (cur_time : Int) (ctxs : List Context) : List Context :=
  let expiration := cur_time - 15 * 24 * 3600
  (ctxs.filter (fun c => !contextDead expiration c)).map (pruneAnswers cur_time expiration)

/-! ## Helper lemmas -/

theorem takeLast_nil (n : Nat) : takeLast n ([] : List α) = [] := by
  simp [takeLast]

theorem takeLast_length_le (n : Nat) (l : List α) : (takeLast n l).length ≤ n := by
  simp only [takeLast, List.length_drop]
  omega

theorem find?_of_all_true {p : α → Bool} (l : List α) (hp : ∀ a, p a = true) :
    l.find? p = l.head? := by
  cases l with
  | nil => rfl
  | cons a t => simp [List.find?, hp a]

theorem dictGet_upd_self [BEq κ] [LawfulBEq κ] (d : List (κ × α)) (k : κ) (dflt : α)
    (f : α → α) : dictGet (dictUpd d k dflt f) k = some (f (dictGetD d k dflt)) := by
  simp only [dictUpd]
  by_cases h : d.any (fun p => p.1 == k)
  · simp only [h, if_true]
    induction d with
    | nil => simp at h
    | cons p t ih =>
      by_cases hp : p.1 == k
      · simp [dictGet, dictGetD, List.find?, hp]
      · have ht : t.any (fun q => q.1 == k) = true := by
          simp only [List.any_cons, hp, Bool.false_or] at h
          exact h
        simpa [dictGet, dictGetD, List.find?, hp] using ih ht
  · have hnone : d.find? (fun p => p.1 == k) = none := by
      rw [List.find?_eq_none]
      intro x hx hpx
      exact h (List.any_of_mem hx hpx)
    simp [h, dictGet, dictGetD, List.find?_append, hnone]

theorem find?_upd_map [BEq κ] [LawfulBEq κ] (d : List (κ × α)) (k k' : κ) (f : α → α)
    (hne : k' ≠ k) :
    (d.map (fun p => if p.1 == k then (p.1, f p.2) else p)).find? (fun p => p.1 == k') =
      d.find? (fun p => p.1 == k') := by
  induction d with
  | nil => rfl
  | cons p t ih =>
    by_cases hp : p.1 == k
    · have hpk : (p.1 == k') = false := by
        rw [beq_eq_false_iff_ne]
        intro he
        exact hne (he.symm.trans (eq_of_beq hp))
      simp [List.find?, hp, hpk, ih]
    · by_cases hp' : p.1 == k'
      · simp [List.find?, hp, hp']
      · simp [List.find?, hp, hp', ih]

theorem dictGet_upd_ne [BEq κ] [LawfulBEq κ] (d : List (κ × α)) (k k' : κ) (dflt : α)
    (f : α → α) (hne : k' ≠ k) : dictGet (dictUpd d k dflt f) k' = dictGet d k' := by
  simp only [dictUpd]
  by_cases h : d.any (fun p => p.1 == k)
  · simp only [h, if_true, dictGet, find?_upd_map d k k' f hne]
  · have hk : (k == k') = false := by
      rw [beq_eq_false_iff_ne]
      exact fun he => hne he.symm
    simp only [h, Bool.false_eq_true, if_false, dictGet, List.find?_append]
    cases hf : d.find? (fun q => q.1 == k') <;> simp [List.find?, hk, hf]

theorem setAdd_mem (l : List String) (x : String) : x ∈ setAdd l x := by
  unfold setAdd
  by_cases h : l.contains x = true
  · rw [if_pos h]
    exact List.mem_of_elem_eq_true h
  · rw [if_neg h]
    exact List.mem_append_right _ (by simp)

theorem setAdd_mem_of_mem (l : List String) (x y : String) (h : y ∈ l) :
    y ∈ setAdd l x := by
  unfold setAdd
  by_cases hc : l.contains x = true
  · rwa [if_pos hc]
  · rw [if_neg hc]
    exact List.mem_append_left _ h

/-! ## C1: the answer-merge invariant of `_context_insert` -/

theorem insertAnswer_of_none (g kw : String) (t : Int) (p : String) (ip : Bool)
    (l : List Answer) (h : l.all (fun a => !answerMatches g kw a) = true) :
    insertAnswer g kw t p ip l =
      l ++ [{ keywords := kw, group_id := g, count := 1, time := t,
              messages := [p], topical := 0 }] := by
  induction l with
  | nil => rfl
  | cons a rest ih =>
    simp only [List.all_cons, Bool.and_eq_true, Bool.not_eq_true'] at h
    simp only [insertAnswer, answerMatches] at h ⊢
    rw [if_neg (by simp [h.1]), ih h.2]
    simp

theorem insertAnswer_update_last (g kw : String) (t : Int) (p : String) (ip : Bool)
    (l : List Answer) (a0 : Answer)
    (h : l.all (fun a => !answerMatches g kw a) = true)
    (ha : answerMatches g kw a0 = true) :
    insertAnswer g kw t p ip (l ++ [a0]) =
      l ++ [{ a0 with
              count := a0.count + 1,
              time := t,
              messages := if ip then a0.messages ++ [p] else a0.messages }] := by
  induction l with
  | nil =>
    simp only [List.nil_append, insertAnswer, answerMatches] at ha ⊢
    rw [if_pos ha]
  | cons a rest ih =>
    simp only [List.all_cons, Bool.and_eq_true, Bool.not_eq_true'] at h
    simp only [List.cons_append, insertAnswer, answerMatches, List.append_eq] at h ⊢
    rw [if_neg (by simp [h.1]), ih h.2]

theorem insertAnswer_all_key (P : String → String → Bool) (g kw : String) (t : Int)
    (p : String) (ip : Bool) (l : List Answer)
    (hl : l.all (fun b => P b.group_id b.keywords) = true) (hk : P g kw = true) :
    (insertAnswer g kw t p ip l).all (fun b => P b.group_id b.keywords) = true := by
  induction l with
  | nil => simpa [insertAnswer] using hk
  | cons a rest ih =>
    simp only [List.all_cons, Bool.and_eq_true] at hl
    by_cases hm : a.group_id == g && a.keywords == kw
    · simp [insertAnswer, hm, List.all_cons, hl.1, hl.2]
    · simp [insertAnswer, hm, List.all_cons, hl.1, ih hl.2]

theorem answersUnique_insertAnswer (g kw : String) (t : Int) (p : String) (ip : Bool)
    (l : List Answer) (h : answersUnique l = true) :
    answersUnique (insertAnswer g kw t p ip l) = true := by
  induction l with
  | nil => simp [insertAnswer, answersUnique]
  | cons a rest ih =>
    simp only [answersUnique, Bool.and_eq_true] at h
    by_cases hm : (a.group_id == g && a.keywords == kw) = true
    · simp only [insertAnswer, hm, if_true]
      simp only [answersUnique, Bool.and_eq_true]
      exact ⟨by simpa using h.1, h.2⟩
    · rw [Bool.not_eq_true] at hm
      have hstep : insertAnswer g kw t p ip (a :: rest) =
          a :: insertAnswer g kw t p ip rest := by
        simp [insertAnswer, hm]
      rw [hstep]
      simp only [answersUnique, Bool.and_eq_true]
      refine ⟨?_, ih h.2⟩
      apply insertAnswer_all_key (fun bg bk => !(bg == a.group_id && bk == a.keywords))
      · exact h.1
      · simp only [Bool.and_eq_false_iff, beq_eq_false_iff_ne] at hm
        simp only [Bool.not_eq_true', Bool.and_eq_false_iff, beq_eq_false_iff_ne]
        rcases hm with h1 | h1
        · exact Or.inl (fun he => h1 he.symm)
        · exact Or.inr (fun he => h1 he.symm)

theorem find?_save_map (l : List Context) (c : Context)
    (h : l.any (fun x => x.keywords == c.keywords) = true) :
    (l.map (fun x => if x.keywords == c.keywords then c else x)).find?
      (fun x => x.keywords == c.keywords) = some c := by
  induction l with
  | nil => simp at h
  | cons x t ih =>
    by_cases hx : (x.keywords == c.keywords) = true
    · simp [List.find?, hx]
    · have ht : t.any (fun y => y.keywords == c.keywords) = true := by
        simp only [List.any_cons, hx, Bool.false_or] at h
        exact h
      rw [Bool.not_eq_true] at hx
      have hhead : (if x.keywords == c.keywords then c else x) = x := by
        simp [hx]
      simp only [List.map_cons, hhead]
      rw [List.find?_cons_of_neg _ (by simp [hx]), ih ht]

theorem getContext_saveContext (db : DB) (c : Context) :
    (db.saveContext c).getContext c.keywords = some c := by
  simp only [DB.saveContext, DB.getContext]
  by_cases h : db.contexts.any (fun x => x.keywords == c.keywords) = true
  · rw [if_pos h]
    exact find?_save_map db.contexts c h
  · rw [if_neg h]
    have hnone : db.contexts.find? (fun x => x.keywords == c.keywords) = none := by
      rw [List.find?_eq_none]
      intro x hx hpx
      exact h (List.any_of_mem hx hpx)
    simp [List.find?_append, hnone, List.find?]

theorem saveContext_available (db : DB) (c : Context) :
    (db.saveContext c).available = db.available := rfl

theorem dbAnswersUnique_saveContext (db : DB) (c : Context)
    (hdb : dbAnswersUnique db = true) (hc : answersUnique c.answers = true) :
    dbAnswersUnique (db.saveContext c) = true := by
  simp only [dbAnswersUnique, DB.saveContext] at hdb ⊢
  by_cases h : db.contexts.any (fun x => x.keywords == c.keywords)
  · simp only [h, if_true, List.all_map]
    rw [List.all_eq_true] at hdb ⊢
    intro x hx
    by_cases hxc : x.keywords == c.keywords <;> simp [Function.comp, hxc, hc, hdb x hx]
  · simp only [h, if_false, List.all_append]
    simp [hdb, hc]

theorem getContext_mem (db : DB) (k : String) (c : Context)
    (h : db.getContext k = some c) : c ∈ db.contexts ∧ c.keywords = k := by
  simp only [DB.getContext] at h
  refine ⟨List.mem_of_find?_eq_some h, ?_⟩
  have := List.find?_some h
  simpa [beq_iff_eq] using this

/-- C1, part 1 (invariant preservation) is `dbAnswersUnique_contextInsert`
below; the claim's theorem conjoins it with the double-insert property. -/
theorem dbAnswersUnique_contextInsert (cd : ChatData) (pre : Option Message) (db : DB)
    (hdb : dbAnswersUnique db = true) :
    dbAnswersUnique (contextInsert cd pre db) = true := by
  cases pre with
  | none => exact hdb
  | some pre =>
    simp only [contextInsert]
    by_cases h1 : (!db.available) = true
    · simp [h1, hdb]
    · simp only [Bool.not_eq_true'] at h1
      simp only [h1, Bool.not_true, Bool.false_eq_true, if_false]
      by_cases h2 : pre.plain_text == cd.plain_text
      · simp [h2, hdb]
      · simp only [h2, Bool.false_eq_true, if_false]
        by_cases h3 : containsStr cd.plain_text "[CQ:reply," <;>
          simp only [h3, if_true, if_false, Bool.false_eq_true, hdb]
        cases hget : db.getContext pre.keywords with
        | some context =>
          apply dbAnswersUnique_saveContext _ _ hdb
          apply answersUnique_insertAnswer
          have hmem := (getContext_mem db pre.keywords context hget).1
          simp only [dbAnswersUnique, List.all_eq_true] at hdb
          exact hdb context hmem
        | none =>
          apply dbAnswersUnique_saveContext _ _ hdb
          simp [answersUnique]

theorem contextInsert_available (cd : ChatData) (pre : Option Message) (db : DB) :
    (contextInsert cd pre db).available = db.available := by
  cases pre with
  | none => rfl
  | some pre =>
    simp only [contextInsert]
    split
    · rfl
    · split
      · rfl
      · split
        · rfl
        · cases db.getContext pre.keywords <;> rfl

theorem contextInsert_proceed (cd : ChatData) (pre : Message) (db : DB)
    (hav : db.available = true)
    (hrep : pre.plain_text ≠ cd.plain_text)
    (hquote : containsStr cd.plain_text "[CQ:reply," = false) :
    contextInsert cd (some pre) db =
      match db.getContext pre.keywords with
      | some context =>
        db.saveContext
          { context with
            answers := insertAnswer cd.group_id cd.kw cd.time cd.plain_text cd.isPlain
              context.answers,
            time := cd.time,
            trigger_count := context.trigger_count + 1 }
      | none =>
        db.saveContext
          { keywords := pre.keywords, time := cd.time, trigger_count := 1,
            answers := [{ keywords := cd.kw, group_id := cd.group_id, count := 1,
                          time := cd.time, messages := [cd.plain_text], topical := 0 }],
            ban := [], clear_time := 0 } := by
  have h1 : (pre.plain_text == cd.plain_text) = false := beq_eq_false_iff_ne.mpr hrep
  simp only [contextInsert, hav, Bool.not_true, Bool.false_eq_true, if_false, h1, hquote]

/-- C1: (1) every `_context_insert` call preserves the at-most-one-Answer-per
`(group, keyword)` invariant across the stored contexts; (2) running
`_context_insert` twice with the same previous-message keyword, the same new
keyword and the same group (both calls passing the repeat/reply-quote guards,
the persistence collaborator available, and the pair not yet present) leaves
exactly one Answer for that `(group, keyword)` in the stored Context, with
count 2 and the two plain-text messages in its message list — never two
Answer entries. -/
theorem c1_answer_merge_invariant :
    (∀ (cd : ChatData) (pre : Option Message) (db : DB),
        dbAnswersUnique db = true → dbAnswersUnique (contextInsert cd pre db) = true) ∧
    (∀ (db : DB) (pre1 pre2 : Message) (cd1 cd2 : ChatData),
        db.available = true →
        pre2.keywords = pre1.keywords →
        cd2.group_id = cd1.group_id → cd2.kw = cd1.kw →
        pre1.plain_text ≠ cd1.plain_text → pre2.plain_text ≠ cd2.plain_text →
        containsStr cd1.plain_text "[CQ:reply," = false →
        containsStr cd2.plain_text "[CQ:reply," = false →
        cd2.isPlain = true →
        (∀ c, db.getContext pre1.keywords = some c →
          c.answers.all (fun a => !answerMatches cd1.group_id cd1.kw a) = true) →
        ∃ c2 a,
          (contextInsert cd2 (some pre2)
              (contextInsert cd1 (some pre1) db)).getContext pre1.keywords = some c2 ∧
          c2.answers.filter (answerMatches cd1.group_id cd1.kw) = [a] ∧
          a.count = 2 ∧ a.messages = [cd1.plain_text, cd2.plain_text]) := by
  constructor
  · exact dbAnswersUnique_contextInsert
  · intro db pre1 pre2 cd1 cd2 hav hk2 hg2 hkw2 hne1 hne2 hq1 hq2 hp2 hfresh
    have key : ∃ c1' l,
        (contextInsert cd1 (some pre1) db).getContext pre1.keywords = some c1' ∧
        c1'.keywords = pre1.keywords ∧
        c1'.answers = l ++ [{ keywords := cd1.kw, group_id := cd1.group_id, count := 1,
                              time := cd1.time, messages := [cd1.plain_text],
                              topical := 0 }] ∧
        l.all (fun a => !answerMatches cd1.group_id cd1.kw a) = true := by
      cases hget : db.getContext pre1.keywords with
      | some c =>
        have hcmem := getContext_mem db pre1.keywords c hget
        have hall := hfresh c hget
        have hstep : contextInsert cd1 (some pre1) db = db.saveContext
            { c with
              answers := insertAnswer cd1.group_id cd1.kw cd1.time cd1.plain_text
                cd1.isPlain c.answers,
              time := cd1.time, trigger_count := c.trigger_count + 1 } := by
          rw [contextInsert_proceed cd1 pre1 db hav hne1 hq1, hget]
        refine ⟨{ c with
            answers := insertAnswer cd1.group_id cd1.kw cd1.time cd1.plain_text
              cd1.isPlain c.answers,
            time := cd1.time, trigger_count := c.trigger_count + 1 },
          c.answers, ?_, hcmem.2, ?_, hall⟩
        · rw [hstep, ← hcmem.2]
          exact getContext_saveContext db _
        · show insertAnswer cd1.group_id cd1.kw cd1.time cd1.plain_text
            cd1.isPlain c.answers = _
          rw [insertAnswer_of_none _ _ _ _ _ _ hall]
      | none =>
        have hstep : contextInsert cd1 (some pre1) db = db.saveContext
            { keywords := pre1.keywords, time := cd1.time, trigger_count := 1,
              answers := [{ keywords := cd1.kw, group_id := cd1.group_id, count := 1,
                            time := cd1.time, messages := [cd1.plain_text], topical := 0 }],
              ban := [], clear_time := 0 } := by
          rw [contextInsert_proceed cd1 pre1 db hav hne1 hq1, hget]
        refine ⟨{
            keywords := pre1.keywords, time := cd1.time, trigger_count := 1,
            answers := [{ keywords := cd1.kw, group_id := cd1.group_id, count := 1,
                          time := cd1.time, messages := [cd1.plain_text], topical := 0 }],
            ban := [], clear_time := 0 }, [], ?_, rfl, by simp, by simp⟩
        rw [hstep]
        exact getContext_saveContext db _
    obtain ⟨c1', l, hdb1, hk1', hans1, hall1⟩ := key
    have hav1 : (contextInsert cd1 (some pre1) db).available = true := by
      rw [contextInsert_available]; exact hav
    have hmatch : answerMatches cd2.group_id cd2.kw
        ({ keywords := cd1.kw, group_id := cd1.group_id, count := 1,
           time := cd1.time, messages := [cd1.plain_text], topical := 0 } : Answer) = true := by
      simp [answerMatches, hg2, hkw2]
    have hall1' : l.all (fun a => !answerMatches cd2.group_id cd2.kw a) = true := by
      rw [hg2, hkw2]; exact hall1
    have hstep2 : contextInsert cd2 (some pre2) (contextInsert cd1 (some pre1) db) =
        (contextInsert cd1 (some pre1) db).saveContext
          { c1' with
            answers := l ++ [{ keywords := cd1.kw, group_id := cd1.group_id, count := 2,
                               time := cd2.time,
                               messages := [cd1.plain_text, cd2.plain_text], topical := 0 }],
            time := cd2.time, trigger_count := c1'.trigger_count + 1 } := by
      rw [contextInsert_proceed cd2 pre2 _ hav1 hne2 hq2, hk2, hdb1]
      show (contextInsert cd1 (some pre1) db).saveContext
          { c1' with
            answers := insertAnswer cd2.group_id cd2.kw cd2.time cd2.plain_text
              cd2.isPlain c1'.answers,
            time := cd2.time, trigger_count := c1'.trigger_count + 1 } = _
      rw [hans1, insertAnswer_update_last _ _ _ _ _ _ _ hall1' hmatch, hp2]
      simp
    have hdb2 : (contextInsert cd2 (some pre2)
        (contextInsert cd1 (some pre1) db)).getContext pre1.keywords = some
          { c1' with
            answers := l ++ [{ keywords := cd1.kw, group_id := cd1.group_id, count := 2,
                               time := cd2.time,
                               messages := [cd1.plain_text, cd2.plain_text], topical := 0 }],
            time := cd2.time, trigger_count := c1'.trigger_count + 1 } := by
      rw [hstep2, ← hk1']
      exact getContext_saveContext _ _
    refine ⟨_, {
        keywords := cd1.kw, group_id := cd1.group_id, count := 2,
        time := cd2.time, messages := [cd1.plain_text, cd2.plain_text], topical := 0 },
      hdb2, ?_, rfl, rfl⟩
    rw [List.filter_append]
    have h1 : l.filter (answerMatches cd1.group_id cd1.kw) = [] := by
      rw [List.filter_eq_nil_iff]
      intro a ha
      have := List.all_eq_true.mp hall1 a ha
      simp only [Bool.not_eq_true'] at this
      simp [this]
    rw [h1]
    simp [List.filter, answerMatches]

/-! ## Concrete fixtures for witnesses and counterexamples -/

/-- An empty but available persistence collaborator. -/
def wDB : DB := { available := true, contexts := [], messages := [], blacklists := [] }

/-- The empty run-time cache state over an available collaborator. -/
def wState : ChatState :=
  { message_dict := [], reply_dict := [], blacklist_answer := [],
    blacklist_answer_reserve := [], recent_topics := [], late_save_time := 0, db := wDB }

/-- A cached plain-text message. -/
def wMsg (g u plain kw : String) (t : Int) : Message :=
  { group_id := g, user_id := u, bot_id := "b", raw_message := plain,
    is_plain_text := true, plain_text := plain, keywords := kw, time := t }

/-- A plain-text inbound event record. -/
def wCd (g u plain : String) (t : Int) (kws : List String) : ChatData :=
  { group_id := g, user_id := u, raw_message := plain, plain_text := plain,
    time := t, bot_id := "b", keywordsList := kws, to_me := false }

/-- A fixed draw outcome. -/
def wRnd : Rand := { thresholdIdx := 0, pickIdx := 0, msgIdx := 0, split := false }

/-- Previous message for the C1 witness. -/
def wPre : Message := wMsg "g" "u0" "hello there" "pk" 1

/-- Witness for C1: the double-insert property at a concrete fresh database. -/
theorem c1_answer_merge_invariant_witness :
    ∃ c2 a,
      (contextInsert (wCd "g" "u2" "bar" 3 ["kw"]) (some wPre)
          (contextInsert (wCd "g" "u1" "foo" 2 ["kw"]) (some wPre) wDB)).getContext
        wPre.keywords = some c2 ∧
      c2.answers.filter
        (answerMatches (wCd "g" "u1" "foo" 2 ["kw"]).group_id
          (wCd "g" "u1" "foo" 2 ["kw"]).kw) = [a] ∧
      a.count = 2 ∧
      a.messages = [(wCd "g" "u1" "foo" 2 ["kw"]).plain_text,
                    (wCd "g" "u2" "bar" 3 ["kw"]).plain_text] :=
  c1_answer_merge_invariant.2 wDB wPre wPre (wCd "g" "u1" "foo" 2 ["kw"])
    (wCd "g" "u2" "bar" 3 ["kw"]) (by decide) rfl rfl (by decide) (by decide) (by decide)
    (by decide) (by decide) (by decide)
    (by intro c hc; simp [wDB, DB.getContext] at hc)

/-! ## C7: the learn contract -/

/-- C7: `learn` returns `false` exactly when the trimmed raw text is empty or
the persistence collaborator is unavailable; in those cases every cache and
every stored context is left untouched (the whole state is returned
unchanged), and in all other cases it returns `true`. -/
theorem c7_learn_contract (cd : ChatData) (s : ChatState) :
    ((learn cd s).1 = false ↔
      ((pyStrip cd.raw_message).length = 0 ∨ s.db.available = false)) ∧
    (((pyStrip cd.raw_message).length = 0 ∨ s.db.available = false) → (learn cd s).2 = s) := by
  unfold learn
  by_cases h1 : (pyStrip cd.raw_message).length = 0
  · simp [h1]
  · have h1' : ((pyStrip cd.raw_message).length == 0) = false := by
      simpa using h1
    by_cases h2 : s.db.available = true
    · simp [h1', h2, h1]
    · have h2' : s.db.available = false := by
        simpa using h2
      simp [h1', h2', h1]

/-- Witness for C7 at a whitespace-only concrete event. -/
theorem c7_learn_contract_witness :
    (learn (wCd "g" "u" " " 1 []) wState).1 = false ∧
    (learn (wCd "g" "u" " " 1 []) wState).2 = wState :=
  ⟨(c7_learn_contract _ _).1.mpr (Or.inl (by decide)),
   (c7_learn_contract _ _).2 (Or.inl (by decide))⟩

/-! ## C5: pruning safety -/

/-- C5: every Context whose trigger count is at least the acceptance
threshold, or whose last-trigger time lies within the 15-day window, survives
`clearup_context`: a row with the same keyword, trigger count and trigger
time is still present (its answers possibly pruned to a subset). -/
theorem c5_pruning_safety (cur_time : Int) (ctxs : List Context) (c : Context)
    (hmem : c ∈ ctxs)
    (hkeep : ANSWER_THRESHOLD ≤ c.trigger_count ∨
      cur_time - 15 * 24 * 3600 ≤ c.time) :
    ∃ c', c' ∈ clearupContext cur_time ctxs ∧ c'.keywords = c.keywords ∧
      c'.trigger_count = c.trigger_count ∧ c'.time = c.time ∧
      ∀ a ∈ c'.answers, a ∈ c.answers := by
  have hdead : contextDead (cur_time - 15 * 24 * 3600) c = false := by
    unfold contextDead
    rcases hkeep with h | h
    · have ht : decide (c.trigger_count < ANSWER_THRESHOLD) = false := by
        simp only [decide_eq_false_iff_not, not_lt]
        exact h
      rw [ht]
      simp only [Bool.and_false, Bool.false_and]
    · have ht : decide (c.time < cur_time - 15 * 24 * 3600) = false := by
        simp only [decide_eq_false_iff_not, not_lt]
        exact h
      rw [ht]
      simp only [Bool.and_false, Bool.false_and]
  have hremain : c ∈ ctxs.filter (fun x => !contextDead (cur_time - 15 * 24 * 3600) x) := by
    rw [List.mem_filter]
    exact ⟨hmem, by simp only [Bool.not_eq_true']; exact hdead⟩
  have himg := List.mem_map_of_mem (pruneAnswers cur_time (cur_time - 15 * 24 * 3600)) hremain
  have hclear : clearupContext cur_time ctxs =
      (ctxs.filter (fun x => !contextDead (cur_time - 15 * 24 * 3600) x)).map
        (pruneAnswers cur_time (cur_time - 15 * 24 * 3600)) := rfl
  rw [← hclear] at himg
  unfold pruneAnswers at himg
  by_cases hbig : (decide (100 < c.trigger_count) ||
      decide (c.clear_time < cur_time - 15 * 24 * 3600)) = true
  · rw [if_pos hbig] at himg
    exact ⟨_, himg, rfl, rfl, rfl, fun a ha => List.mem_of_mem_filter ha⟩
  · rw [if_neg hbig] at himg
    exact ⟨_, himg, rfl, rfl, rfl, fun a ha => ha⟩

/-- Low-value answer of the C5 witness context. -/
def wC5Ans : Answer :=
  { keywords := "kw", group_id := "g", count := 1, time := 0, messages := ["m"],
    topical := 0 }

/-- Recently-triggered low-count context of the C5 witness. -/
def wC5Ctx : Context :=
  { keywords := "pk", time := 90, trigger_count := 1, answers := [wC5Ans],
    ban := [], clear_time := 0 }

/-- Witness for C5: a recently-triggered low-count context with one
low-value answer survives pruning. -/
theorem c5_pruning_safety_witness :
    ∃ c', c' ∈ clearupContext 100 [wC5Ctx] ∧ c'.keywords = "pk" ∧
      c'.trigger_count = 1 ∧ c'.time = 90 ∧ ∀ a ∈ c'.answers, a ∈ [wC5Ans] :=
  c5_pruning_safety 100 [wC5Ctx] wC5Ctx (List.mem_singleton_self _) (Or.inr (by decide))

/-! ## C4: the second learning edge -/

theorem topicsAppend_db (s : ChatState) (g : String) (ks : List String) :
    (topicsAppend s g ks).db = s.db := rfl

theorem syncOp_db_contexts (t : Int) (s : ChatState) :
    (syncOp t s).db.contexts = s.db.contexts := by
  unfold syncOp
  split
  · rfl
  · split
    · rfl
    · rfl

theorem messageInsert_db_contexts (cd : ChatData) (s : ChatState) :
    (messageInsert cd s).db.contexts = s.db.contexts := by
  unfold messageInsert
  dsimp only
  have aux : ∀ s1 : ChatState, s1.db.contexts = s.db.contexts →
      (if s1.late_save_time == 0 then { s1 with late_save_time := cd.time - 1 }
       else if (msgCache s1 cd.group_id).length > SAVE_COUNT_THRESHOLD then
         syncOp cd.time s1
       else if cd.time - s1.late_save_time > SAVE_TIME_THRESHOLD then syncOp cd.time s1
       else s1).db.contexts = s.db.contexts := by
    intro s1 h1
    split
    · exact h1
    · split
      · rw [syncOp_db_contexts]; exact h1
      · split
        · rw [syncOp_db_contexts]; exact h1
        · exact h1
  apply aux
  split <;> rfl

/-- Fixture for C4: the current sender's own earlier message. -/
def wC4M1 : Message := wMsg "g" "uc" "AAA" "ka" 1

/-- Fixture for C4: the immediately previous message, from a different user. -/
def wC4M2 : Message := wMsg "g" "ub" "BBB" "kb" 2

/-- Fixture for C4: the current event, from the sender of `wC4M1`. -/
def wC4Cd : ChatData := wCd "g" "uc" "CCC" 3 ["kc"]

/-- Fixture for C4: state caching `[wC4M1, wC4M2]`. -/
def wC4State : ChatState := { wState with message_dict := [("g", [wC4M1, wC4M2])] }

/-- Counterexample for C4 as stated: with the previous message from a
different user, the scan selects the current sender's own earlier message
(`wC4M1.user_id = wC4Cd.user_id`), not one from a different user, and `learn`
creates the second edge keyed by that same-user message's keywords `"ka"`. -/
theorem c4_second_edge_counterexample :
    learnSecondEdge wC4Cd [wC4M1, wC4M2] = some wC4M1 ∧
    wC4M1.user_id = wC4Cd.user_id ∧
    ((learn wC4Cd wC4State).2.db.getContext "ka").isSome = true := by
  refine ⟨by decide, by decide, by decide⟩

/-- C4 (amended): when the group's previous cached message exists and was
sent by a different user, `learn` scans at most the last two cached messages
for one sent by the SAME user as the current sender; on a match it
creates/updates a second Context→Answer edge keyed by that message (in
addition to the edge from the immediately previous message). -/
theorem c4_second_edge_same_user (cd : ChatData) (s : ChatState) (msgs : List Message)
    (m : Message)
    (hcache : dictGet s.message_dict cd.group_id = some msgs)
    (hraw : ((pyStrip cd.raw_message).length == 0) = false)
    (hav : s.db.available = true)
    (h : learnSecondEdge cd msgs = some m) :
    m.user_id = cd.user_id ∧ m ∈ takeLast 2 msgs ∧
    (∃ pre, msgs.getLast? = some pre ∧ pre.user_id ≠ cd.user_id) ∧
    (learn cd s).2.db.contexts =
      (contextInsert cd (some m) (contextInsert cd msgs.getLast? s.db)).contexts := by
  have hparts : m.user_id = cd.user_id ∧ m ∈ takeLast 2 msgs ∧
      ∃ pre, msgs.getLast? = some pre ∧ pre.user_id ≠ cd.user_id := by
    unfold learnSecondEdge at h
    cases hlast : msgs.getLast? with
    | none =>
      rw [hlast] at h
      have h' : (none : Option Message) = some m := h
      exact absurd h' (by simp)
    | some pre =>
      rw [hlast] at h
      have h' : (if (pre.user_id != cd.user_id) = true then
          (takeLast 2 msgs).reverse.find? (fun x => x.user_id == cd.user_id)
          else none) = some m := h
      by_cases hu : (pre.user_id != cd.user_id) = true
      · rw [if_pos hu] at h'
        refine ⟨?_, ?_, pre, rfl, ?_⟩
        · have := List.find?_some h'
          simpa [beq_iff_eq] using this
        · exact List.mem_reverse.mp (List.mem_of_find?_eq_some h')
        · simpa [bne_iff_ne] using hu
      · rw [if_neg hu] at h'
        exact absurd h' (by simp)
  refine ⟨hparts.1, hparts.2.1, hparts.2.2, ?_⟩
  unfold learn
  rw [if_neg (by simp [hraw]), if_neg (by simp [hav]), hcache]
  simp only [h]
  rw [messageInsert_db_contexts]

/-- Witness for C4 (amended) at the concrete fixture. -/
theorem c4_second_edge_same_user_witness :
    wC4M1.user_id = wC4Cd.user_id ∧ wC4M1 ∈ takeLast 2 [wC4M1, wC4M2] ∧
    (∃ pre, [wC4M1, wC4M2].getLast? = some pre ∧ pre.user_id ≠ wC4Cd.user_id) ∧
    (learn wC4Cd wC4State).2.db.contexts =
      (contextInsert wC4Cd (some wC4M1)
        (contextInsert wC4Cd [wC4M1, wC4M2].getLast? wC4State.db)).contexts :=
  c4_second_edge_same_user wC4Cd wC4State [wC4M1, wC4M2] wC4M1 (by decide) (by decide)
    (by decide) (by decide)

/-! ## C6: checkpoint trimming -/

theorem find?_map_snd [BEq κ] (l : List (κ × α)) (f : α → α) (g : κ) :
    (l.map (fun p => (p.1, f p.2))).find? (fun p => p.1 == g) =
      (l.find? (fun p => p.1 == g)).map (fun p => (p.1, f p.2)) := by
  induction l with
  | nil => rfl
  | cons p t ih =>
    by_cases hp : (p.1 == g) = true <;> simp [List.find?, hp, ih]

/-- Stale cached message for the C6 counterexample. -/
def wStaleMsg : Message := wMsg "g" "u" "m" "m" 50

/-- A group cache of 101 messages, all older than the last flush time. -/
def wStaleState : ChatState :=
  { wState with
    late_save_time := 100,
    message_dict := [("g", List.replicate 101 wStaleMsg)] }

set_option maxRecDepth 8000 in
/-- Counterexample for C6 as stated: when no cached message is newer than the
previous last-flush time, `_sync` returns before trimming, so a cache of 101
stale messages stays above `SAVE_RESERVED_SIZE = 100` and the last-flush
timestamp does not advance to the flush time. -/
theorem c6_sync_counterexample :
    ¬((msgCache (syncOp 200 wStaleState) "g").length ≤ SAVE_RESERVED_SIZE) ∧
    (syncOp 200 wStaleState).late_save_time ≠ 200 := by
  constructor <;> decide

/-- C6 (amended): after a `_sync` call that actually has something to flush
(the collaborator available and at least one cached message newer than the
previous last-flush time), every group's cache is trimmed to its
`SAVE_RESERVED_SIZE` most recent messages, every selected message has been
persisted (appended to the stored messages), every cached message newer than
the previous flush time is persisted, and the last-flush timestamp advances
to the flush time. -/
theorem c6_sync_flush (cur_time : Int) (s : ChatState)
    (hdb : s.db.available = true) (hnew : (saveList s).isEmpty = false) :
    (∀ g, msgCache (syncOp cur_time s) g = takeLast SAVE_RESERVED_SIZE (msgCache s g)) ∧
    (∀ g, (msgCache (syncOp cur_time s) g).length ≤ SAVE_RESERVED_SIZE) ∧
    (syncOp cur_time s).db.messages = s.db.messages ++ saveList s ∧
    (∀ g, ∀ m ∈ msgCache s g, s.late_save_time < m.time →
      m ∈ (syncOp cur_time s).db.messages) ∧
    (syncOp cur_time s).late_save_time = cur_time := by
  have hsync : syncOp cur_time s =
      { s with
        message_dict := s.message_dict.map (fun p => (p.1, takeLast SAVE_RESERVED_SIZE p.2)),
        late_save_time := cur_time,
        db := { s.db with messages := s.db.messages ++ saveList s } } := by
    unfold syncOp
    rw [if_neg (by simp [hdb]), if_neg (by simp [hnew])]
  have hcache : ∀ g, msgCache (syncOp cur_time s) g =
      takeLast SAVE_RESERVED_SIZE (msgCache s g) := by
    intro g
    rw [hsync]
    show dictGetD (s.message_dict.map fun p => (p.1, takeLast SAVE_RESERVED_SIZE p.2)) g []
      = _
    unfold msgCache dictGetD dictGet
    rw [find?_map_snd]
    cases hf : s.message_dict.find? (fun p => p.1 == g) with
    | none => simp [hf, takeLast_nil]
    | some p => simp [hf]
  refine ⟨hcache, ?_, ?_, ?_, ?_⟩
  · intro g
    rw [hcache g]
    exact takeLast_length_le _ _
  · rw [hsync]
  · intro g m hm ht
    have hmem : m ∈ saveList s := by
      unfold msgCache dictGetD dictGet at hm
      cases hf : s.message_dict.find? (fun p => p.1 == g) with
      | none => rw [hf] at hm; simp at hm
      | some p =>
        rw [hf] at hm
        simp only [Option.map_some', Option.getD_some] at hm
        have hpmem : p ∈ s.message_dict := List.mem_of_find?_eq_some hf
        unfold saveList
        rw [List.mem_flatten]
        refine ⟨p.2.filter (fun x => decide (x.time > s.late_save_time)), ?_, ?_⟩
        · exact List.mem_map_of_mem
            (fun q => q.2.filter (fun x => decide (x.time > s.late_save_time))) hpmem
        · rw [List.mem_filter]
          exact ⟨hm, by simpa using ht⟩
    rw [hsync]
    exact List.mem_append_right _ hmem
  · rw [hsync]

/-- A group cache holding one message newer than the last flush time. -/
def wFreshState : ChatState :=
  { wState with
    late_save_time := 100,
    message_dict := [("g", List.replicate 150 wStaleMsg ++ [wMsg "g" "u" "n" "n" 150])] }

set_option maxRecDepth 8000 in
/-- Witness for C6 (amended) at the concrete oversized-but-fresh cache. -/
theorem c6_sync_flush_witness :
    (msgCache (syncOp 200 wFreshState) "g").length ≤ SAVE_RESERVED_SIZE ∧
    (syncOp 200 wFreshState).late_save_time = 200 ∧
    (syncOp 200 wFreshState).db.messages =
      wFreshState.db.messages ++ saveList wFreshState :=
  ⟨(c6_sync_flush 200 wFreshState (by decide) (by decide)).2.1 "g",
   (c6_sync_flush 200 wFreshState (by decide) (by decide)).2.2.2.2,
   (c6_sync_flush 200 wFreshState (by decide) (by decide)).2.2.1⟩

/-! ## C2: repeat-reply-once -/

theorem dictGet_of_msgCache_ne (s : ChatState) (g : String) (h : msgCache s g ≠ []) :
    dictGet s.message_dict g = some (msgCache s g) := by
  unfold msgCache dictGetD
  cases hf : dictGet s.message_dict g with
  | none =>
    unfold msgCache dictGetD at h
    rw [hf] at h
    simp at h
  | some v => simp

/-- The value of `repeatStage` once the group is repeating: reply with the
repeated text when the bot's ledger is non-empty and its last reply differs,
else nothing. -/
theorem repeatStage_of_repeat (cd : ChatData) (s : ChatState)
    (hmsgs : REPEAT_THRESHOLD ≤ (msgCache s cd.group_id).length)
    (hrep : (takeLast (REPEAT_THRESHOLD - 1) (msgCache s cd.group_id)).all
      (fun m => m.plain_text == cd.plain_text) = true) :
    repeatStage cd s =
      some (match (replyLedger s cd.group_id cd.bot_id).getLast? with
            | some last =>
              if last.reply != cd.plain_text then some ([cd.plain_text], cd.kw) else none
            | none => none) := by
  unfold repeatStage
  have hnonnil : msgCache s cd.group_id ≠ [] := by
    intro h0
    rw [h0] at hmsgs
    simp [REPEAT_THRESHOLD] at hmsgs
  rw [dictGet_of_msgCache_ne s cd.group_id hnonnil]
  show (if decide (REPEAT_THRESHOLD ≤ (msgCache s cd.group_id).length) &&
      (takeLast (REPEAT_THRESHOLD - 1) (msgCache s cd.group_id)).all
        (fun m => m.plain_text == cd.plain_text) then
    some (match (replyLedger s cd.group_id cd.bot_id).getLast? with
          | some last =>
            if last.reply != cd.plain_text then some ([cd.plain_text], cd.kw) else none
          | none => none)
    else none) = _
  rw [decide_eq_true hmsgs, hrep]
  rfl

/-- C2 (amended): once a group's cache shows the repeat pattern (at least
`REPEAT_THRESHOLD` cached messages, the last two equal in plain text to the
current message of length ≥ 2), `answer()` mirrors the repeated text exactly
once — it replies `[text]` when the bot's ledger for the group is non-empty
with a last recorded reply different from the text, and stays silent when
the ledger is empty or its last recorded reply already equals the text. -/
theorem c2_repeat_reply_once (cd : ChatData) (s : ChatState) (rnd : Rand) (now : Int)
    (hlen : 2 ≤ cd.plain_text.length)
    (hmsgs : REPEAT_THRESHOLD ≤ (msgCache s cd.group_id).length)
    (hrep : (takeLast (REPEAT_THRESHOLD - 1) (msgCache s cd.group_id)).all
      (fun m => m.plain_text == cd.plain_text) = true) :
    ((∃ r, (replyLedger s cd.group_id cd.bot_id).getLast? = some r ∧
        r.reply ≠ cd.plain_text) →
      (answerOp cd s rnd now).2 = some ([cd.plain_text], cd.kw)) ∧
    ((∀ r, (replyLedger s cd.group_id cd.bot_id).getLast? = some r →
        r.reply = cd.plain_text) →
      (answerOp cd s rnd now).2 = none) := by
  have hstage := repeatStage_of_repeat cd s hmsgs hrep
  have hguard : ¬((cd.isPlain && decide (cd.plain_text.length < 2)) = true) := by
    have hd : decide (cd.plain_text.length < 2) = false := by
      simp only [decide_eq_false_iff_not, not_lt]
      exact hlen
    simp [hd]
  constructor
  · rintro ⟨r, hr, hne⟩
    have hfind : contextFind cd s rnd = some ([cd.plain_text], cd.kw) := by
      unfold contextFind
      rw [hstage]
      show (match (replyLedger s cd.group_id cd.bot_id).getLast? with
            | some last =>
              if last.reply != cd.plain_text then some ([cd.plain_text], cd.kw) else none
            | none => none) = _
      rw [hr]
      show (if r.reply != cd.plain_text then some ([cd.plain_text], cd.kw) else none) = _
      rw [if_pos (bne_iff_ne.mpr hne)]
    unfold answerOp
    rw [if_neg hguard, hfind]
  · intro hall
    have hfind : contextFind cd s rnd = none := by
      unfold contextFind
      rw [hstage]
      show (match (replyLedger s cd.group_id cd.bot_id).getLast? with
            | some last =>
              if last.reply != cd.plain_text then some ([cd.plain_text], cd.kw) else none
            | none => none) = _
      cases hlast : (replyLedger s cd.group_id cd.bot_id).getLast? with
      | none => rfl
      | some r =>
        show (if r.reply != cd.plain_text then some ([cd.plain_text], cd.kw) else none) = _
        have hb : (r.reply != cd.plain_text) = false := by
          simp [hall r hlast]
        rw [hb]
        simp
    unfold answerOp
    rw [if_neg hguard, hfind]

/-- Three cached "草" messages from three different users. -/
def wCaoState : ChatState :=
  { wState with
    message_dict := [("g", [wMsg "g" "u1" "草" "草" 1, wMsg "g" "u2" "草" "草" 2,
      wMsg "g" "u3" "草" "草" 3])] }

/-- The third "草" event. -/
def wCaoCd : ChatData := wCd "g" "u3" "草" 3 ["草"]

/-- Counterexample for C2 as stated: with three consecutive identical "草"
messages cached and no prior bot reply, `answer()` for the third occurrence
returns nothing — "草" has length 1 and is refused by the short-plain-text
guard (and even past that guard, an empty reply ledger suppresses the repeat
branch) — not the claimed `["草"]`. -/
theorem c2_repeat_counterexample :
    (answerOp wCaoCd wCaoState wRnd 10).2 = none ∧
    ∀ kw, (answerOp wCaoCd wCaoState wRnd 10).2 ≠ some (["草"], kw) := by
  constructor
  · decide
  · intro kw h
    rw [(by decide : (answerOp wCaoCd wCaoState wRnd 10).2 = none)] at h
    exact Option.noConfusion h

/-- An unrelated earlier bot reply. -/
def wOkReply : Reply :=
  { time := 0, pre_raw_message := "x", pre_keywords := "x",
    reply := "ok", reply_keywords := "ok" }

/-- Three cached "哈哈" messages, ledger holding one unrelated reply. -/
def wHaState : ChatState :=
  { wState with
    message_dict := [("g", [wMsg "g" "u1" "哈哈" "哈哈" 1, wMsg "g" "u2" "哈哈" "哈哈" 2,
      wMsg "g" "u3" "哈哈" "哈哈" 3])],
    reply_dict := [("g", [("b", [wOkReply])])] }

/-- The third "哈哈" event. -/
def wHaCd : ChatData := wCd "g" "u3" "哈哈" 3 ["哈哈"]

/-- The bot's last recorded reply after mirroring "哈哈". -/
def wHa4Reply : Reply :=
  { time := 10, pre_raw_message := "哈哈", pre_keywords := "哈哈",
    reply := "哈哈", reply_keywords := "哈哈" }

/-- Fourth "哈哈" message, the bot's last recorded reply already "哈哈". -/
def wHa4State : ChatState :=
  { wState with
    message_dict := [("g", [wMsg "g" "u1" "哈哈" "哈哈" 1, wMsg "g" "u2" "哈哈" "哈哈" 2,
      wMsg "g" "u3" "哈哈" "哈哈" 3, wMsg "g" "u4" "哈哈" "哈哈" 4])],
    reply_dict := [("g", [("b", [wHa4Reply])])] }

/-- The fourth "哈哈" event. -/
def wHa4Cd : ChatData := wCd "g" "u4" "哈哈" 4 ["哈哈"]

/-- Witness for C2 (amended): the third two-character repeat is mirrored
once; the fourth, with the bot's last recorded reply equal to it, gets no
reply. -/
theorem c2_repeat_reply_once_witness :
    (answerOp wHaCd wHaState wRnd 10).2 = some (["哈哈"], wHaCd.kw) ∧
    (answerOp wHa4Cd wHa4State wRnd 11).2 = none :=
  ⟨(c2_repeat_reply_once wHaCd wHaState wRnd 10 (by decide) (by decide) (by decide)).1
      ⟨wOkReply, by decide, by decide⟩,
   (c2_repeat_reply_once wHa4Cd wHa4State wRnd 11 (by decide) (by decide) (by decide)).2
      (fun r hr => by
        have he : (replyLedger wHa4State wHa4Cd.group_id wHa4Cd.bot_id).getLast? =
            some wHa4Reply := by decide
        rw [he] at hr
        have hreq : wHa4Reply = r := Option.some.inj hr
        rw [← hreq]
        decide)⟩

/-! ## C9: banning with an empty target -/

theorem dictGetD_upd_self [BEq κ] [LawfulBEq κ] (d : List (κ × α)) (k : κ) (dflt : α)
    (f : α → α) : dictGetD (dictUpd d k dflt f) k dflt = f (dictGetD d k dflt) := by
  unfold dictGetD
  rw [dictGet_upd_self]
  rfl

theorem dictGetD_upd_ne [BEq κ] [LawfulBEq κ] (d : List (κ × α)) (k k' : κ)
    (dflt dflt' : α) (f : α → α) (hne : k' ≠ k) :
    dictGetD (dictUpd d k dflt f) k' dflt' = dictGetD d k' dflt' := by
  unfold dictGetD
  rw [dictGet_upd_ne _ _ _ _ _ hne]

/-- Whatever branch `blPromote` takes, the keyword ends up in the group's
active or reserve blacklist set. -/
theorem blPromote_mem (g kw : String) (s : ChatState) :
    kw ∈ blActive (blPromote g kw s) (.group g) ∨
    kw ∈ blReserve (blPromote g kw s) (.group g) := by
  unfold blPromote
  by_cases hres : ((blReserve s (.group g)).contains kw) = true
  · rw [if_pos hres]
    left
    dsimp only
    split
    · show kw ∈ dictGetD (dictUpd (dictUpd s.blacklist_answer (.group g) []
        (fun l => setAdd l kw)) .flag [] (fun l => setAdd l kw)) (.group g) []
      rw [dictGetD_upd_ne _ _ _ _ _ _ (by simp), dictGetD_upd_self]
      exact setAdd_mem _ _
    · show kw ∈ dictGetD (dictUpd s.blacklist_answer (.group g) []
        (fun l => setAdd l kw)) (.group g) []
      rw [dictGetD_upd_self]
      exact setAdd_mem _ _
  · rw [if_neg hres]
    right
    show kw ∈ dictGetD (dictUpd s.blacklist_answer_reserve (.group g) []
      (fun l => setAdd l kw)) (.group g) []
    rw [dictGetD_upd_self]
    exact setAdd_mem _ _

theorem replyLedger_dictGet_ne (s : ChatState) (g b : String)
    (h : replyLedger s g b ≠ []) : (dictGet s.reply_dict g).isNone = false := by
  unfold replyLedger dictGetD at h
  cases hf : dictGet s.reply_dict g with
  | none =>
    rw [hf] at h
    simp [dictGet] at h
  | some inner => simp [hf]

/-- The ledger search of `ban` with an empty target always selects the most
recent ledger entry. -/
theorem banTarget_empty (s : ChatState) (g b : String) :
    banTarget s g b "" = (replyLedger s g b).getLast? := by
  unfold banTarget
  dsimp only
  have hfind : ((replyLedger s g b).reverse).find?
      (fun r => "" == "" || containsStr r.reply "") = (replyLedger s g b).getLast? := by
    rw [find?_of_all_true _ (fun r => by simp), List.head?_reverse]
  rw [hfind]
  cases hlast : (replyLedger s g b).getLast? with
  | some r => rfl
  | none => rfl

/-- C9: `ban` called with an empty target text, while the account's reply
ledger for the group is non-empty (and the persistence collaborator is
available), matches the most recent ledger entry and returns `true`,
staging or promoting that entry's reply keywords in the group's blacklist
sets rather than failing with "target not found". -/
theorem c9_ban_empty_target (s : ChatState) (g b reason : String) (now : Int)
    (hdb : s.db.available = true)
    (hled : replyLedger s g b ≠ []) :
    (banOp g b "" reason now s).1 = true ∧
    banTarget s g b "" = (replyLedger s g b).getLast? ∧
    (∀ r, (replyLedger s g b).getLast? = some r →
      r.reply_keywords ∈ blActive (banOp g b "" reason now s).2 (.group g) ∨
      r.reply_keywords ∈ blReserve (banOp g b "" reason now s).2 (.group g)) := by
  have htarget := banTarget_empty s g b
  have hdictg := replyLedger_dictGet_ne s g b hled
  obtain ⟨r0, hr0⟩ : ∃ r0, (replyLedger s g b).getLast? = some r0 := by
    cases hlast : (replyLedger s g b).getLast? with
    | some r => exact ⟨r, rfl⟩
    | none =>
      cases hl : replyLedger s g b with
      | nil => exact absurd hl hled
      | cons x xs =>
        rw [hl] at hlast
        simp [List.getLast?_eq_getLast] at hlast
  have hban : banOp g b "" reason now s = (true,
      blPromote g r0.reply_keywords
        { s with db :=
            match s.db.getContext r0.pre_keywords with
            | some ctx =>
              s.db.saveContext
                { ctx with ban := ctx.ban ++
                    [{ keywords := r0.reply_keywords, group_id := g, reason := reason,
                       time := now }] }
            | none => s.db }) := by
    unfold banOp
    rw [hdictg, htarget, hr0]
    show (if !s.db.available then (false, s) else _) = _
    rw [if_neg (by simp [hdb])]
  refine ⟨by rw [hban], htarget, ?_⟩
  intro r hr
  have hrr : r0 = r := Option.some.inj (hr0 ▸ hr)
  rw [hban, ← hrr]
  exact blPromote_mem g r0.reply_keywords _

/-- Ledger entry for the C9 witness. -/
def wBanReply : Reply :=
  { time := 1, pre_raw_message := "p", pre_keywords := "pk",
    reply := "bad text", reply_keywords := "bad" }

/-- State with one recorded reply in group `g1` for the C9/C3 scenarios. -/
def wBanState : ChatState :=
  { wState with reply_dict := [("g1", [("b", [wBanReply])]), ("g2", [("b", [wBanReply])])] }

/-- Witness for C9 at the concrete ledger. -/
theorem c9_ban_empty_target_witness :
    (banOp "g1" "b" "" "r" 5 wBanState).1 = true ∧
    banTarget wBanState "g1" "b" "" = (replyLedger wBanState "g1" "b").getLast? ∧
    ("bad" ∈ blActive (banOp "g1" "b" "" "r" 5 wBanState).2 (.group "g1") ∨
     "bad" ∈ blReserve (banOp "g1" "b" "" "r" 5 wBanState).2 (.group "g1")) :=
  ⟨(c9_ban_empty_target wBanState "g1" "b" "r" 5 (by decide) (by decide)).1,
   (c9_ban_empty_target wBanState "g1" "b" "r" 5 (by decide) (by decide)).2.1,
   (c9_ban_empty_target wBanState "g1" "b" "r" 5 (by decide) (by decide)).2.2
     wBanReply (by decide)⟩

/-! ## C3: cross-group ban promotion -/

/-- State after banning "bad" once in each of the two groups. -/
def wC3Once : ChatState :=
  (banOp "g2" "b" "bad text" "r" 6 (banOp "g1" "b" "bad text" "r" 5 wBanState).2).2

/-- Counterexample for C3 as stated: with cross-group threshold 2, banning
the keyword once in each of two different groups only stages it in each
group's *reserve* set (first strike), so `update_global_blacklist` — which
counts across the *active* sets — leaves the global active set without it. -/
theorem c3_ban_promotion_counterexample :
    (banOp "g1" "b" "bad text" "r" 5 wBanState).1 = true ∧
    (banOp "g2" "b" "bad text" "r" 6 (banOp "g1" "b" "bad text" "r" 5 wBanState).2).1
      = true ∧
    "bad" ∈ blReserve wC3Once (.group "g1") ∧
    "bad" ∈ blReserve wC3Once (.group "g2") ∧
    "bad" ∉ blActive (updateGlobalBlacklist wC3Once) .flag := by
  refine ⟨by decide, by decide, by decide, by decide, by decide⟩

/-- State after banning "bad" twice in group `g1` only. -/
def wC3TwiceG1 : ChatState :=
  (banOp "g1" "b" "bad text" "r" 6 (banOp "g1" "b" "bad text" "r" 5 wBanState).2).2

/-- State after banning "bad" twice in each of the two groups. -/
def wC3TwiceBoth : ChatState :=
  (banOp "g2" "b" "bad text" "r" 8 (banOp "g2" "b" "bad text" "r" 7 wC3TwiceG1).2).2

/-- C3 (amended): with cross-group threshold 2, banning the same answer
keyword twice in each of two different groups (first strike staging it in
the group's reserve set, the second promoting it to the group's active set)
and then running `update_global_blacklist` leaves the keyword present in the
global active blacklist set; banning it (twice) in only one group leaves it
absent from the global active set. -/
theorem c3_ban_promotion :
    "bad" ∈ blActive wC3TwiceBoth (.group "g1") ∧
    "bad" ∈ blActive wC3TwiceBoth (.group "g2") ∧
    "bad" ∈ blActive (updateGlobalBlacklist wC3TwiceBoth) .flag ∧
    "bad" ∉ blActive (updateGlobalBlacklist wC3TwiceG1) .flag := by
  refine ⟨by decide, by decide, by decide, by decide⟩

/-! ## C8: single surviving candidate -/

theorem weightedChoice_singleton (x : α) (ws : List Nat) (r : Nat) :
    weightedChoice [x] ws r = some x := by
  unfold weightedChoice
  simp [Nat.mod_one]

/-- C8: whenever exactly one candidate answer survives all the selector's
filters (for the drawn acceptance threshold), `answer()` emits that
candidate's text: for every outcome of the random draws the reply carries
that candidate's keywords and its segments are derived (call-prefix strip
and optional clause split) from one of that candidate's recorded messages —
no other candidate's text can be emitted. -/
theorem c8_single_candidate (cd : ChatData) (s : ChatState) (rnd : Rand) (now : Int)
    (ctx : Context) (k : String) (a : Answer)
    (hshort : (cd.isPlain && decide (cd.plain_text.length < 2)) = false)
    (hrep : repeatStage cd s = none)
    (hdb : s.db.available = true)
    (hctx : s.db.getContext cd.kw = some ctx)
    (hcand : collectCandidates cd s ctx (thresholdOf cd rnd) (crossOf cd)
      (findBanKeywords (some ctx) cd.group_id s) = [(k, a)])
    (hmsgs : a.messages ≠ []) :
    ∃ m ∈ a.messages,
      (answerOp cd s rnd now).2 = some (segmentsOf m rnd, a.keywords) := by
  have hlen : 0 < a.messages.length := List.length_pos.mpr hmsgs
  have hidx : rnd.msgIdx % a.messages.length < a.messages.length := Nat.mod_lt _ hlen
  have hmain : contextFindMain cd s rnd ctx =
      some (segmentsOf (a.messages.get ⟨rnd.msgIdx % a.messages.length, hidx⟩) rnd,
        a.keywords) := by
    unfold contextFindMain
    rw [hcand]
    simp only [List.map_cons, List.map_nil, List.isEmpty_cons, Bool.false_eq_true,
      if_false, weightedChoice_singleton]
    rw [List.getElem?_eq_getElem hidx]
    rfl
  have hfind : contextFind cd s rnd =
      some (segmentsOf (a.messages.get ⟨rnd.msgIdx % a.messages.length, hidx⟩) rnd,
        a.keywords) := by
    unfold contextFind
    rw [hrep]
    show (if !s.db.available then none
          else match s.db.getContext cd.kw with
               | none => none
               | some context => contextFindMain cd s rnd context) = _
    rw [if_neg (by simp [hdb]), hctx]
    exact hmain
  refine ⟨a.messages.get ⟨rnd.msgIdx % a.messages.length, hidx⟩,
    a.messages.get_mem _ _, ?_⟩
  unfold answerOp
  rw [if_neg (by simp [hshort]), hfind]

/-- Single surviving candidate of the C8 witness. -/
def wC8Ans : Answer :=
  { keywords := "resp", group_id := "g", count := 5, time := 0,
    messages := ["yo"], topical := 0 }

/-- Stored context of the C8 witness. -/
def wC8Ctx : Context :=
  { keywords := "hi", time := 0, trigger_count := 5, answers := [wC8Ans],
    ban := [], clear_time := 0 }

/-- State whose database holds only `wC8Ctx`. -/
def wC8State : ChatState :=
  { wState with db := { wDB with contexts := [wC8Ctx] } }

/-- The inbound event of the C8 witness, keyed "hi". -/
def wC8Cd : ChatData := wCd "g" "u" "hi there" 3 ["hi"]

/-- Witness for C8 at the concrete single-candidate state. -/
theorem c8_single_candidate_witness :
    ∃ m ∈ wC8Ans.messages,
      (answerOp wC8Cd wC8State wRnd 9).2 = some (segmentsOf m wRnd, wC8Ans.keywords) :=
  c8_single_candidate wC8Cd wC8State wRnd 9 wC8Ctx "resp" wC8Ans (by decide) (by decide)
    (by decide) (by decide) (by decide) (by decide)

/-! ## C10: the REPLY_FLAG sentinel and deferred per-segment effects -/

theorem replyLedger_replyAppend (s : ChatState) (g b : String) (rs : List Reply) :
    replyLedger (replyAppend s g b rs) g b = replyLedger s g b ++ rs := by
  unfold replyLedger replyAppend
  show dictGetD (dictGetD (dictUpd s.reply_dict g []
    (fun inner => dictUpd inner b [] (· ++ rs))) g []) b [] = _
  rw [dictGetD_upd_self, dictGetD_upd_self]

theorem consumeSegment_ledger (cd : ChatData) (kws item : String) (now : Int)
    (st : ChatState) :
    replyLedger (consumeSegment cd kws now st item) cd.group_id cd.bot_id =
      replyLedger st cd.group_id cd.bot_id ++
        [{ time := now, pre_raw_message := cd.raw_message, pre_keywords := cd.kw,
           reply := item, reply_keywords := kws }] := by
  unfold consumeSegment
  dsimp only
  have h1 : ∀ (x : ChatState) (g : String) (ks : List String),
      replyLedger (topicsAppend x g ks) cd.group_id cd.bot_id =
        replyLedger x cd.group_id cd.bot_id := fun _ _ _ => rfl
  rw [h1]
  split
  · rw [h1]
    exact replyLedger_replyAppend st cd.group_id cd.bot_id _
  · exact replyLedger_replyAppend st cd.group_id cd.bot_id _

theorem consumeList_ledger (cd : ChatData) (kws : String) (now : Int)
    (st : ChatState) (items : List String) :
    replyLedger (consumeList cd kws now st items) cd.group_id cd.bot_id =
      replyLedger st cd.group_id cd.bot_id ++ items.map (fun item =>
        { time := now, pre_raw_message := cd.raw_message, pre_keywords := cd.kw,
          reply := item, reply_keywords := kws }) := by
  induction items generalizing st with
  | nil => simp [consumeList]
  | cons x xs ih =>
    show replyLedger (consumeList cd kws now (consumeSegment cd kws now st x) xs)
      cd.group_id cd.bot_id = _
    rw [ih, consumeSegment_ledger]
    simp

/-- C10: a successful `answer()` call appends exactly one `REPLY_FLAG`
sentinel entry to the `(group, account)` reply ledger before any segment is
consumed — the topics ring and message cache are untouched at that point,
even if the sequence is never consumed — and consuming the first `k`
segments appends exactly the `k` per-segment ledger entries, in order, after
the sentinel. -/
theorem c10_reply_flag (cd : ChatData) (s : ChatState) (rnd : Rand) (now : Int)
    (segs : List String) (kws : String)
    (h : (answerOp cd s rnd now).2 = some (segs, kws)) :
    replyLedger (answerOp cd s rnd now).1 cd.group_id cd.bot_id =
      replyLedger s cd.group_id cd.bot_id ++
        [{ time := now, pre_raw_message := cd.raw_message, pre_keywords := cd.kw,
           reply := REPLY_FLAG, reply_keywords := REPLY_FLAG }] ∧
    (answerOp cd s rnd now).1.recent_topics = s.recent_topics ∧
    (answerOp cd s rnd now).1.message_dict = s.message_dict ∧
    (∀ k, replyLedger
        (consumeList cd kws now (answerOp cd s rnd now).1 (segs.take k))
        cd.group_id cd.bot_id =
      replyLedger s cd.group_id cd.bot_id ++
        ({ time := now, pre_raw_message := cd.raw_message, pre_keywords := cd.kw,
           reply := REPLY_FLAG, reply_keywords := REPLY_FLAG } ::
         (segs.take k).map (fun item =>
           { time := now, pre_raw_message := cd.raw_message, pre_keywords := cd.kw,
             reply := item, reply_keywords := kws }))) := by
  unfold answerOp at h ⊢
  by_cases hg : (cd.isPlain && decide (cd.plain_text.length < 2)) = true
  · rw [if_pos hg] at h
    exact absurd h (by simp)
  · rw [if_neg hg] at h ⊢
    cases hf : contextFind cd s rnd with
    | none =>
      rw [hf] at h
      exact absurd h (by simp)
    | some r =>
      refine ⟨replyLedger_replyAppend s cd.group_id cd.bot_id _, rfl, rfl, fun k => ?_⟩
      have hstep := consumeList_ledger cd kws now
        (replyAppend s cd.group_id cd.bot_id
          [{ time := now, pre_raw_message := cd.raw_message, pre_keywords := cd.kw,
             reply := REPLY_FLAG, reply_keywords := REPLY_FLAG }]) (segs.take k)
      rw [replyLedger_replyAppend] at hstep
      exact hstep.trans (by simp)

/-- Witness for C10 at the repeat-mirror scenario: the sentinel is appended
by the call itself, and consuming the single segment appends its entry. -/
theorem c10_reply_flag_witness :
    replyLedger (answerOp wHaCd wHaState wRnd 10).1 wHaCd.group_id wHaCd.bot_id =
      replyLedger wHaState wHaCd.group_id wHaCd.bot_id ++
        [{ time := 10, pre_raw_message := wHaCd.raw_message, pre_keywords := wHaCd.kw,
           reply := REPLY_FLAG, reply_keywords := REPLY_FLAG }] ∧
    replyLedger (consumeList wHaCd "哈哈" 10 (answerOp wHaCd wHaState wRnd 10).1
        (["哈哈"].take 1)) wHaCd.group_id wHaCd.bot_id =
      replyLedger wHaState wHaCd.group_id wHaCd.bot_id ++
        ({ time := 10, pre_raw_message := wHaCd.raw_message, pre_keywords := wHaCd.kw,
           reply := REPLY_FLAG, reply_keywords := REPLY_FLAG } ::
         (["哈哈"].take 1).map (fun item =>
           { time := 10, pre_raw_message := wHaCd.raw_message, pre_keywords := wHaCd.kw,
             reply := item, reply_keywords := "哈哈" })) :=
  ⟨(c10_reply_flag wHaCd wHaState wRnd 10 ["哈哈"] "哈哈" (by decide)).1,
   (c10_reply_flag wHaCd wHaState wRnd 10 ["哈哈"] "哈哈" (by decide)).2.2.2 1⟩

end ChatImitate
